import Mathlib

/-!
Shallow embedding of the publication scheduler of the kanban/content-plan
application.  Instants are modelled as natural numbers of milliseconds since a
local epoch whose day 0 is a Thursday (mirroring JavaScript `Date` arithmetic
in local time, without DST).  The task store is a list of task rows; Prisma
`findUnique` / `findFirst` / `update` become `List.find?` / `List.any` /
`List.map`.
-/

namespace KanbanSched

/-- A task row, with the fields visible in the source
(`id`, `title`, `description`, `assigneeId`, `columnId`, `publishAt`,
`publishTelegram`, `publishVkOk`, `publishWebsite`, `priority`, `source`,
`sourceUser`).  `publishAt` is milliseconds since the local epoch. -/
structure Task where
  id : String
  title : String
  description : String
  assigneeId : Option String
  columnId : Option String
  publishAt : Option Nat
  publishTelegram : Bool
  publishVkOk : Bool
  publishWebsite : Bool
  priority : String
  source : Option String
  sourceUser : Option String
deriving DecidableEq, Repr

/-- Milliseconds in one hour. -/
def msPerHour : Nat := 3600000

/-- Milliseconds in one calendar day (no DST in the model). -/
def msPerDay : Nat := 86400000

/-- The instant "day `d`, `h`:00:00.000 local time": what the source builds by
`scheduleDate.setHours(hour, 0, 0, 0)` on the day at offset `d`. -/
def slotInstant (d h : Nat) : Nat := d * msPerDay + h * msPerHour

/-- JavaScript `Date.getDay()` for day index `d`: 0 = Sunday .. 6 = Saturday.
Day 0 of the model epoch is a Thursday (= 4), as for the Unix epoch. -/
def jsGetDay (d : Nat) : Nat := (d + 4) % 7

/-- `const timeSlots = [9, 13, 15, 17]` from the source. -/
def timeSlots : List Nat := [9, 13, 15, 17]

/-- The weekend test of the source:
`date.getDay() === 0 || date.getDay() === 6`. -/
def isWeekend (d : Nat) : Bool := jsGetDay d == 0 || jsGetDay d == 6

/-- `db.task.findFirst({ where: { publishAt: scheduleDate, columnId: null } })`
returns a row iff some task has exactly this `publishAt` and a null column. -/
def slotTaken (store : List Task) (inst : Nat) : Bool :=
  store.any fun t => t.publishAt == some inst && t.columnId == none

/-- The days visited by the outer loop `for (dayOffset = 0; dayOffset < 30;
dayOffset++)` that survive the weekend `continue`, in visit order. -/
def businessDays (d0 : Nat) : List Nat :=
  ((List.range 30).map fun off => d0 + off).filter fun d => !isWeekend d

/-- The candidate instants of the nested loop, in visit order:
days outer (business days of the 30-day horizon), the four slots inner. -/
def candidateSlots (d0 : Nat) : List Nat :=
  (businessDays d0).flatMap fun d => timeSlots.map fun h => slotInstant d h

/-- The slot search: the first candidate whose slot is not taken, if any.
This is the early exit of the nested loop in the source. -/
def findFreeSlot (store : List Task) (d0 : Nat) : Option Nat :=
  (candidateSlots d0).find? fun inst => !slotTaken store inst

/-- The two error kinds `schedulePublication` can throw:
"Задача не найдена" and "Не удалось найти свободный слот для публикации". -/
inductive SchedError where
  | NotFound
  | NoAvailableSlot
deriving DecidableEq, Repr

/-- `db.task.findUnique({ where: { id: taskId } })`. -/
def findUniqueTask (store : List Task) (taskId : String) : Option Task :=
  store.find? fun t => t.id == taskId

/-- `db.task.update({ where: { id }, data })`: rewrite the matching row(s). -/
def updateTaskRow (store : List Task) (taskId : String) (f : Task → Task) :
    List Task :=
  store.map fun t => if t.id == taskId then f t else t

deriving instance DecidableEq for Except

/-- Result of one `schedulePublication` call: the task store afterwards, the
number of `db.task.update` calls performed, and the returned task or error. -/
structure SchedResult where
  store : List Task
  writes : Nat
  outcome : Except SchedError Task
deriving DecidableEq, Repr

/-- `schedulePublication({ taskId, removeFromKanban })` against store `store`,
invoked at instant `now` (milliseconds since the local epoch).

Mirrors the source: load the task (`NotFound` if absent); if `publishAt` is
set, optionally clear `columnId` in the store and return the task object that
was loaded before that update; otherwise scan `candidateSlots (now / msPerDay)`
for the first free slot, persist it (clearing `columnId` when asked), and
return the updated row; `NoAvailableSlot` when the horizon is exhausted. -/
def schedulePublication (store : List Task) (now : Nat) (taskId : String)
    (removeFromKanban : Bool) : SchedResult :=
  match findUniqueTask store taskId with
  | none => ⟨store, 0, .error .NotFound⟩
  | some task =>
    match task.publishAt with
    | some _ =>
      if removeFromKanban then
        ⟨updateTaskRow store task.id (fun t => { t with columnId := none }),
         1, .ok task⟩
      else
        ⟨store, 0, .ok task⟩
    | none =>
      match findFreeSlot store (now / msPerDay) with
      | none => ⟨store, 0, .error .NoAvailableSlot⟩
      | some inst =>
        let newColumnId := if removeFromKanban then none else task.columnId
        ⟨updateTaskRow store task.id
           (fun t => { t with publishAt := some inst, columnId := newColumnId }),
         1,
         .ok { task with publishAt := some inst, columnId := newColumnId }⟩

/-- Equality of all task fields other than `publishAt` and `columnId`. -/
def sameFrame (a b : Task) : Prop :=
  a.id = b.id ∧ a.title = b.title ∧ a.description = b.description ∧
  a.assigneeId = b.assigneeId ∧ a.publishTelegram = b.publishTelegram ∧
  a.publishVkOk = b.publishVkOk ∧ a.publishWebsite = b.publishWebsite ∧
  a.priority = b.priority ∧ a.source = b.source ∧ a.sourceUser = b.sourceUser

/-- A convenient content-plan task constructor used by concrete instances. -/
def mkTask (id : String) (columnId : Option String) (publishAt : Option Nat) :
    Task :=
  { id := id, title := "t", description := "", assigneeId := none,
    columnId := columnId, publishAt := publishAt, publishTelegram := true,
    publishVkOk := true, publishWebsite := true, priority := "green",
    source := none, sourceUser := none }

/-! ### Helper lemmas -/

lemma find?_eq_some_split {α : Type} (p : α → Bool) :
    ∀ (l : List α) (a : α), l.find? p = some a →
      ∃ l1 l2, l = l1 ++ a :: l2 ∧ (∀ b ∈ l1, p b = false) ∧ p a = true
  | [], a, h => by simp [List.find?] at h
  | x :: xs, a, h => by
    by_cases hx : p x
    · rw [List.find?_cons_of_pos _ hx] at h
      obtain rfl : x = a := by injection h
      exact ⟨[], xs, rfl, by simp, hx⟩
    · rw [List.find?_cons_of_neg _ (by simpa using hx)] at h
      obtain ⟨l1, l2, rfl, h1, h2⟩ := find?_eq_some_split p xs a h
      refine ⟨x :: l1, l2, rfl, ?_, h2⟩
      intro b hb
      rcases List.mem_cons.mp hb with rfl | hb
      · simpa using hx
      · exact h1 b hb

lemma mem_businessDays {d0 d : Nat} :
    d ∈ businessDays d0 ↔ d0 ≤ d ∧ d < d0 + 30 ∧ isWeekend d = false := by
  simp only [businessDays, List.mem_filter, List.mem_map, List.mem_range,
    Bool.not_eq_true']
  constructor
  · rintro ⟨⟨off, hoff, rfl⟩, hw⟩
    exact ⟨Nat.le_add_right _ _, by omega, hw⟩
  · rintro ⟨h1, h2, hw⟩
    exact ⟨⟨d - d0, by omega, by omega⟩, hw⟩

lemma mem_candidateSlots {d0 inst : Nat} :
    inst ∈ candidateSlots d0 ↔
      ∃ d ∈ businessDays d0, ∃ h ∈ timeSlots, inst = slotInstant d h := by
  simp only [candidateSlots, List.mem_flatMap, List.mem_map]
  constructor
  · rintro ⟨d, hd, h, hh, rfl⟩
    exact ⟨d, hd, h, hh, rfl⟩
  · rintro ⟨d, hd, h, hh, rfl⟩
    exact ⟨d, hd, h, hh, rfl⟩

lemma slotTaken_eq_false_iff (store : List Task) (inst : Nat) :
    slotTaken store inst = false ↔
      ∀ u ∈ store, u.columnId = none → u.publishAt ≠ some inst := by
  rw [← Bool.not_eq_true, slotTaken, List.any_eq_true]
  simp only [Bool.and_eq_true, beq_iff_eq, not_exists, not_and]
  constructor
  · intro h u hu hc hp
    exact h u hu hp hc
  · intro h u hu hp hc
    exact h u hu hc hp

lemma slotTaken_eq_true_iff (store : List Task) (inst : Nat) :
    slotTaken store inst = true ↔
      ∃ u ∈ store, u.publishAt = some inst ∧ u.columnId = none := by
  rw [slotTaken, List.any_eq_true]
  simp only [Bool.and_eq_true, beq_iff_eq]

lemma slotInstant_div_msPerDay {d h : Nat} (hh : h ∈ timeSlots) :
    slotInstant d h / msPerDay = d := by
  have : h = 9 ∨ h = 13 ∨ h = 15 ∨ h = 17 := by
    simpa [timeSlots] using hh
  rcases this with rfl | rfl | rfl | rfl <;>
    simp [slotInstant, msPerDay, msPerHour] <;> omega

lemma findFreeSlot_is_first_free {store : List Task} {d0 inst : Nat}
    (h : findFreeSlot store d0 = some inst) :
    ∃ l1 l2, candidateSlots d0 = l1 ++ inst :: l2
      ∧ (∀ c ∈ l1, slotTaken store c = true)
      ∧ slotTaken store inst = false := by
  obtain ⟨l1, l2, hsplit, h1, h2⟩ := find?_eq_some_split _ _ _ h
  refine ⟨l1, l2, hsplit, ?_, by simpa using h2⟩
  intro c hc
  have := h1 c hc
  simpa using this

lemma schedulePublication_not_found {store : List Task} {now : Nat}
    {taskId : String} {rfk : Bool}
    (hfind : findUniqueTask store taskId = none) :
    schedulePublication store now taskId rfk = ⟨store, 0, .error .NotFound⟩ := by
  simp [schedulePublication, hfind]

lemma schedulePublication_explicit {store : List Task} {now : Nat}
    {taskId : String} {rfk : Bool} {task : Task} {p : Nat}
    (hfind : findUniqueTask store taskId = some task)
    (hpub : task.publishAt = some p) :
    schedulePublication store now taskId rfk =
      if rfk then
        ⟨updateTaskRow store task.id (fun t => { t with columnId := none }),
         1, .ok task⟩
      else ⟨store, 0, .ok task⟩ := by
  simp only [schedulePublication, hfind, hpub]

lemma schedulePublication_no_slot {store : List Task} {now : Nat}
    {taskId : String} {rfk : Bool} {task : Task}
    (hfind : findUniqueTask store taskId = some task)
    (hpub : task.publishAt = none)
    (hslot : findFreeSlot store (now / msPerDay) = none) :
    schedulePublication store now taskId rfk =
      ⟨store, 0, .error .NoAvailableSlot⟩ := by
  simp [schedulePublication, hfind, hpub, hslot]

lemma schedulePublication_found_slot {store : List Task} {now : Nat}
    {taskId : String} {rfk : Bool} {task : Task} {inst : Nat}
    (hfind : findUniqueTask store taskId = some task)
    (hpub : task.publishAt = none)
    (hslot : findFreeSlot store (now / msPerDay) = some inst) :
    schedulePublication store now taskId rfk =
      ⟨updateTaskRow store task.id
         (fun t => { t with
            publishAt := some inst,
            columnId := if rfk then none else task.columnId }),
       1,
       .ok { task with
              publishAt := some inst,
              columnId := if rfk then none else task.columnId }⟩ := by
  simp [schedulePublication, hfind, hpub, hslot]

lemma slot_path_inversion {store : List Task} {now : Nat} {taskId : String}
    {rfk : Bool} {task : Task} {st' : List Task} {w : Nat} {t' : Task}
    (hfind : findUniqueTask store taskId = some task)
    (hpub : task.publishAt = none)
    (hrun : schedulePublication store now taskId rfk = ⟨st', w, .ok t'⟩) :
    ∃ inst, findFreeSlot store (now / msPerDay) = some inst
      ∧ t' = { task with
                publishAt := some inst,
                columnId := if rfk then none else task.columnId }
      ∧ st' = updateTaskRow store task.id
          (fun t => { t with
             publishAt := some inst,
             columnId := if rfk then none else task.columnId })
      ∧ w = 1 := by
  cases hslot : findFreeSlot store (now / msPerDay) with
  | none =>
    rw [schedulePublication_no_slot hfind hpub hslot] at hrun
    simp at hrun
  | some inst =>
    rw [schedulePublication_found_slot hfind hpub hslot] at hrun
    obtain ⟨h1, h2, h3⟩ := by simpa [SchedResult.mk.injEq] using hrun
    exact ⟨inst, rfl, h3.symm, h1.symm, h2.symm⟩

lemma findFreeSlot_eq_none_iff (store : List Task) (d0 : Nat) :
    findFreeSlot store d0 = none ↔
      ∀ d ∈ businessDays d0, ∀ h ∈ timeSlots,
        slotTaken store (slotInstant d h) = true := by
  rw [findFreeSlot, List.find?_eq_none]
  constructor
  · intro hall d hd h hh
    have := hall (slotInstant d h) (mem_candidateSlots.mpr ⟨d, hd, h, hh, rfl⟩)
    simpa using this
  · intro hall c hc
    obtain ⟨d, hd, h, hh, rfl⟩ := mem_candidateSlots.mp hc
    simpa using hall d hd h hh

lemma findUniqueTask_eq_none_iff (store : List Task) (taskId : String) :
    findUniqueTask store taskId = none ↔ ∀ u ∈ store, u.id ≠ taskId := by
  rw [findUniqueTask, List.find?_eq_none]
  simp

lemma findUniqueTask_mem {store : List Task} {taskId : String} {task : Task}
    (h : findUniqueTask store taskId = some task) :
    task ∈ store ∧ task.id = taskId := by
  refine ⟨List.mem_of_find?_eq_some h, ?_⟩
  have := List.find?_some h
  simpa using this

lemma updateTaskRow_mem {store : List Task} {taskId : String} {f : Task → Task}
    {u : Task} (hu : u ∈ updateTaskRow store taskId f) :
    ∃ t ∈ store, (t.id = taskId ∧ u = f t) ∨ (t.id ≠ taskId ∧ u = t) := by
  simp only [updateTaskRow, List.mem_map] at hu
  obtain ⟨t, ht, rfl⟩ := hu
  by_cases h : t.id = taskId
  · exact ⟨t, ht, Or.inl ⟨h, by simp [h]⟩⟩
  · exact ⟨t, ht, Or.inr ⟨h, by simp [h]⟩⟩

lemma updateTaskRow_map {β : Type} (g : Task → β) (store : List Task)
    (taskId : String) (f : Task → Task) (hg : ∀ t, g (f t) = g t) :
    (updateTaskRow store taskId f).map g = store.map g := by
  induction store with
  | nil => rfl
  | cons t l ih =>
    simp only [updateTaskRow, List.map_cons] at ih ⊢
    rw [ih]
    by_cases h : t.id = taskId <;> simp [h, hg]

lemma sameFrame_refl (t : Task) : sameFrame t t := by
  simp [sameFrame]

lemma updateTaskRow_forall₂ (store : List Task) (taskId : String)
    (f : Task → Task) (hf : ∀ t, sameFrame t (f t)) :
    List.Forall₂ sameFrame store (updateTaskRow store taskId f) := by
  induction store with
  | nil => exact List.Forall₂.nil
  | cons t l ih =>
    simp only [updateTaskRow, List.map_cons]
    refine List.Forall₂.cons ?_ ih
    by_cases h : t.id = taskId
    · simpa [h] using hf t
    · simpa [h] using sameFrame_refl t

lemma nodup_ids_eq {store : List Task} (hnd : (store.map Task.id).Nodup) :
    ∀ u ∈ store, ∀ v ∈ store, u.id = v.id → u = v := by
  induction store with
  | nil => simp
  | cons t l ih =>
    simp only [List.map_cons, List.nodup_cons] at hnd
    obtain ⟨hni, hnd2⟩ := hnd
    intro u hu v hv hid
    rcases List.mem_cons.mp hu with hu1 | hu2
    · rcases List.mem_cons.mp hv with hv1 | hv2
      · rw [hu1, hv1]
      · have hv' : v.id ∈ l.map Task.id := List.mem_map_of_mem Task.id hv2
        rw [← hid, hu1] at hv'
        exact absurd hv' hni
    · rcases List.mem_cons.mp hv with hv1 | hv2
      · have hu' : u.id ∈ l.map Task.id := List.mem_map_of_mem Task.id hu2
        rw [hid, hv1] at hu'
        exact absurd hu' hni
      · exact ih hnd2 u hu2 v hv2 hid

/-! ### Claim theorems -/

/-- Claim C2: whenever `schedulePublication` succeeds on a task with null
`publishAt`, the chosen slot is free — no task of the store with null column
has `publishAt` exactly equal to the chosen instant (exact-instant equality;
tasks sitting on a kanban column do not occupy a slot) — and the chosen
instant has zero minutes, seconds and milliseconds. -/
theorem C2_chosen_slot_free (store : List Task) (now : Nat) (taskId : String)
    (rfk : Bool) (task : Task) (st' : List Task) (w : Nat) (t' : Task)
    (hfind : findUniqueTask store taskId = some task)
    (hpub : task.publishAt = none)
    (hrun : schedulePublication store now taskId rfk = ⟨st', w, .ok t'⟩) :
    ∃ inst, t'.publishAt = some inst
      ∧ (∀ u ∈ store, u.columnId = none → u.publishAt ≠ some inst)
      ∧ inst % msPerHour = 0 := by
  obtain ⟨inst, hslot, ht', _, _⟩ := slot_path_inversion hfind hpub hrun
  refine ⟨inst, by simp [ht'], ?_, ?_⟩
  · obtain ⟨l1, l2, hsplit, _, hfree⟩ := findFreeSlot_is_first_free hslot
    exact (slotTaken_eq_false_iff store inst).mp hfree
  · have hmem : inst ∈ candidateSlots (now / msPerDay) := by
      have := List.mem_of_find?_eq_some hslot
      simpa using this
    obtain ⟨d, _, h, hh, rfl⟩ := mem_candidateSlots.mp hmem
    simp only [slotInstant, msPerDay, msPerHour]
    omega

/-- Witness for C2 at a concrete input: an unscheduled task is scheduled while
a kanban-board task already carries exactly the first candidate instant; the
slot is still considered free. -/
theorem C2_chosen_slot_free_witness :
    findUniqueTask [mkTask "t" none none,
        mkTask "k" (some "C") (some 378000000)] "t" = some (mkTask "t" none none)
    ∧ (mkTask "t" none none).publishAt = none
    ∧ schedulePublication
        [mkTask "t" none none, mkTask "k" (some "C") (some 378000000)]
        345600000 "t" false =
        ⟨[mkTask "t" none (some 378000000),
          mkTask "k" (some "C") (some 378000000)], 1,
         .ok (mkTask "t" none (some 378000000))⟩
    ∧ ∃ inst, (mkTask "t" none (some 378000000)).publishAt = some inst
        ∧ (∀ u ∈ [mkTask "t" none none,
              mkTask "k" (some "C") (some 378000000)],
            u.columnId = none → u.publishAt ≠ some inst)
        ∧ inst % msPerHour = 0 :=
  ⟨by decide, by decide, by decide,
   C2_chosen_slot_free
     [mkTask "t" none none, mkTask "k" (some "C") (some 378000000)]
     345600000 "t" false (mkTask "t" none none)
     [mkTask "t" none (some 378000000), mkTask "k" (some "C") (some 378000000)]
     1 (mkTask "t" none (some 378000000))
     (by decide) (by decide) (by decide)⟩

/-- Claim C3: for every task with null `publishAt` and every store state, a
slot chosen by the slot search never falls on a Saturday (`getDay = 6`) or a
Sunday (`getDay = 0`). -/
theorem C3_no_weekend_slot (store : List Task) (now : Nat) (taskId : String)
    (rfk : Bool) (task : Task) (st' : List Task) (w : Nat) (t' : Task)
    (hfind : findUniqueTask store taskId = some task)
    (hpub : task.publishAt = none)
    (hrun : schedulePublication store now taskId rfk = ⟨st', w, .ok t'⟩) :
    ∃ inst, t'.publishAt = some inst
      ∧ jsGetDay (inst / msPerDay) ≠ 0 ∧ jsGetDay (inst / msPerDay) ≠ 6 := by
  obtain ⟨inst, hslot, ht', _, _⟩ := slot_path_inversion hfind hpub hrun
  refine ⟨inst, by simp [ht'], ?_⟩
  have hmem : inst ∈ candidateSlots (now / msPerDay) := by
    have := List.mem_of_find?_eq_some hslot
    simpa using this
  obtain ⟨d, hd, h, hh, rfl⟩ := mem_candidateSlots.mp hmem
  obtain ⟨-, -, hw⟩ := mem_businessDays.mp hd
  rw [slotInstant_div_msPerDay hh]
  simpa [isWeekend] using hw

/-- Witness for C3 at a concrete input: scheduling from a Saturday, the
chosen slot lands on the following Monday. -/
theorem C3_no_weekend_slot_witness :
    findUniqueTask [mkTask "t" none none] "t" = some (mkTask "t" none none)
    ∧ (mkTask "t" none none).publishAt = none
    ∧ schedulePublication [mkTask "t" none none] 172800000 "t" false =
        ⟨[mkTask "t" none (some 378000000)], 1,
         .ok (mkTask "t" none (some 378000000))⟩
    ∧ ∃ inst, (mkTask "t" none (some 378000000)).publishAt = some inst
        ∧ jsGetDay (inst / msPerDay) ≠ 0 ∧ jsGetDay (inst / msPerDay) ≠ 6 :=
  ⟨by decide, by decide, by decide,
   C3_no_weekend_slot [mkTask "t" none none] 172800000 "t" false
     (mkTask "t" none none) [mkTask "t" none (some 378000000)] 1
     (mkTask "t" none (some 378000000))
     (by decide) (by decide) (by decide)⟩

/-- Claim C4: `schedulePublication` fails with `NotFound` iff no task of the
store has the given id; it fails with `NoAvailableSlot` iff the task exists,
its `publishAt` is null, and every one of the four slots on every business day
of the 30-day horizon is occupied; in either failure case the store is not
mutated and no update is performed. -/
theorem C4_error_cases (store : List Task) (now : Nat) (taskId : String)
    (rfk : Bool) :
    ((schedulePublication store now taskId rfk).outcome = .error .NotFound
      ↔ ∀ u ∈ store, u.id ≠ taskId)
    ∧ ((schedulePublication store now taskId rfk).outcome
          = .error .NoAvailableSlot
      ↔ ∃ task, findUniqueTask store taskId = some task
          ∧ task.publishAt = none
          ∧ ∀ d ∈ businessDays (now / msPerDay), ∀ h ∈ timeSlots,
              slotTaken store (slotInstant d h) = true)
    ∧ ∀ e, (schedulePublication store now taskId rfk).outcome = .error e →
        (schedulePublication store now taskId rfk).store = store
        ∧ (schedulePublication store now taskId rfk).writes = 0 := by
  cases hfind : findUniqueTask store taskId with
  | none =>
    rw [schedulePublication_not_found hfind]
    refine ⟨by simpa using (findUniqueTask_eq_none_iff store taskId).mp hfind,
      ?_, by simp⟩
    simp [hfind]
  | some task =>
    obtain ⟨hmem, hid⟩ := findUniqueTask_mem hfind
    cases hpub : task.publishAt with
    | some p =>
      rw [schedulePublication_explicit hfind hpub]
      refine ⟨?_, ?_, ?_⟩
      · cases rfk <;> simp <;> exact ⟨task, hmem, hid⟩
      · cases rfk <;> simp [hfind, hpub]
      · cases rfk <;> simp
    | none =>
      cases hslot : findFreeSlot store (now / msPerDay) with
      | some inst =>
        rw [schedulePublication_found_slot hfind hpub hslot]
        refine ⟨?_, ?_, ?_⟩
        · simp
          exact ⟨task, hmem, hid⟩
        · simp [hfind, hpub]
          have hmemc : inst ∈ candidateSlots (now / msPerDay) := by
            simpa using List.mem_of_find?_eq_some hslot
          obtain ⟨d, hd, h, hh, rfl⟩ := mem_candidateSlots.mp hmemc
          have hfree : slotTaken store (slotInstant d h) = false := by
            simpa using List.find?_some hslot
          exact ⟨d, hd, h, hh, hfree⟩
        · simp
      | none =>
        rw [schedulePublication_no_slot hfind hpub hslot]
        refine ⟨?_, ?_, by simp⟩
        · simp
          exact ⟨task, hmem, hid⟩
        · simp [hfind, hpub]
          exact (findFreeSlot_eq_none_iff store _).mp hslot

/-- Witness for C4: the no-mutation consequence discharged at a concrete
failing call (`NotFound` on an empty store). -/
theorem C4_error_cases_witness :
    (schedulePublication [] 0 "x" false).store = []
    ∧ (schedulePublication [] 0 "x" false).writes = 0 :=
  (C4_error_cases [] 0 "x" false).2.2 .NotFound (by decide)

/-- Counterexample to claim C5 as stated: a task with a pre-set `publishAt`
sitting on column "C", scheduled with `removeFromKanban = true`, is returned
with its column reference still set to "C" (not cleared), even though the
clearing is persisted to the store. -/
theorem C5_counterexample :
    (schedulePublication [mkTask "t" (some "C") (some 12345)] 0 "t" true).outcome
      = .ok (mkTask "t" (some "C") (some 12345))
    ∧ (mkTask "t" (some "C") (some 12345)).columnId = some "C"
    ∧ (schedulePublication [mkTask "t" (some "C") (some 12345)] 0 "t" true).store
      = [mkTask "t" none (some 12345)] := by decide

/-- Claim C5 (amended): for every task with non-null `publishAt`,
`schedulePublication` succeeds and returns the task object exactly as loaded —
its column reference included, even when `removeFromKanban` is true — while
the column clearing, when `removeFromKanban` is true, is applied to the
persisted store; with `removeFromKanban` false the store is left untouched. -/
theorem C5_explicit_path (store : List Task) (now : Nat) (taskId : String)
    (rfk : Bool) (task : Task) (p : Nat)
    (hfind : findUniqueTask store taskId = some task)
    (hpub : task.publishAt = some p) :
    (schedulePublication store now taskId rfk).outcome = .ok task
    ∧ (rfk = true → ∀ u ∈ (schedulePublication store now taskId rfk).store,
        u.id = taskId → u.columnId = none)
    ∧ (rfk = false → (schedulePublication store now taskId rfk).store = store) := by
  rw [schedulePublication_explicit hfind hpub]
  obtain ⟨hmem, hid⟩ := findUniqueTask_mem hfind
  cases rfk
  · simp
  · refine ⟨by simp, ?_, by simp⟩
    intro _ u hu huid
    simp only [if_true] at hu
    obtain ⟨t, ht, hcase⟩ := updateTaskRow_mem hu
    rcases hcase with ⟨-, rfl⟩ | ⟨hne, rfl⟩
    · rfl
    · rw [hid] at hne
      exact absurd huid hne

/-- Witness for C5 (amended) at a concrete input. -/
theorem C5_explicit_path_witness :
    findUniqueTask [mkTask "t" (some "C") (some 12345)] "t"
        = some (mkTask "t" (some "C") (some 12345))
    ∧ (mkTask "t" (some "C") (some 12345)).publishAt = some 12345
    ∧ ((schedulePublication [mkTask "t" (some "C") (some 12345)] 0 "t" true).outcome
          = .ok (mkTask "t" (some "C") (some 12345))
        ∧ (true = true →
            ∀ u ∈ (schedulePublication [mkTask "t" (some "C") (some 12345)]
                0 "t" true).store,
              u.id = "t" → u.columnId = none)
        ∧ (true = false →
            (schedulePublication [mkTask "t" (some "C") (some 12345)]
                0 "t" true).store = [mkTask "t" (some "C") (some 12345)])) :=
  ⟨by decide, by decide,
   C5_explicit_path [mkTask "t" (some "C") (some 12345)] 0 "t" true
     (mkTask "t" (some "C") (some 12345)) 12345 (by decide) (by decide)⟩

/-- Claim C6: for every task with pre-set (non-null) `publishAt`, calling
`schedulePublication` never changes any task's persisted `publishAt`, and the
returned task carries the pre-set value, regardless of `removeFromKanban`. -/
theorem C6_preset_publishAt_unchanged (store : List Task) (now : Nat)
    (taskId : String) (rfk : Bool) (task : Task) (p : Nat)
    (hfind : findUniqueTask store taskId = some task)
    (hpub : task.publishAt = some p) :
    (schedulePublication store now taskId rfk).store.map Task.publishAt
      = store.map Task.publishAt
    ∧ ∃ t', (schedulePublication store now taskId rfk).outcome = .ok t'
        ∧ t'.publishAt = some p := by
  rw [schedulePublication_explicit hfind hpub]
  cases rfk
  · exact ⟨by simp, task, by simp, hpub⟩
  · refine ⟨?_, task, by simp, hpub⟩
    simp only [if_true]
    exact updateTaskRow_map Task.publishAt store task.id _ (fun t => rfl)

/-- Witness for C6 at a concrete input. -/
theorem C6_preset_publishAt_unchanged_witness :
    findUniqueTask [mkTask "t" (some "C") (some 12345)] "t"
        = some (mkTask "t" (some "C") (some 12345))
    ∧ (mkTask "t" (some "C") (some 12345)).publishAt = some 12345
    ∧ ((schedulePublication [mkTask "t" (some "C") (some 12345)]
          0 "t" true).store.map Task.publishAt
        = [mkTask "t" (some "C") (some 12345)].map Task.publishAt
      ∧ ∃ t', (schedulePublication [mkTask "t" (some "C") (some 12345)]
            0 "t" true).outcome = .ok t'
          ∧ t'.publishAt = some 12345) :=
  ⟨by decide, by decide,
   C6_preset_publishAt_unchanged [mkTask "t" (some "C") (some 12345)] 0 "t" true
     (mkTask "t" (some "C") (some 12345)) 12345 (by decide) (by decide)⟩

/-- Claim C7: for every existing task on column `c` (ids unique in the store),
after a successful `schedulePublication` call the task's persisted column is
null when `removeFromKanban = true` and still `c` when
`removeFromKanban = false`; this holds in both the explicit-`publishAt` path
and the slot-search path. -/
theorem C7_removeFromKanban_semantics (store : List Task) (now : Nat)
    (taskId : String) (rfk : Bool) (task : Task) (c : String) (t' : Task)
    (hnd : (store.map Task.id).Nodup)
    (hfind : findUniqueTask store taskId = some task)
    (hcol : task.columnId = some c)
    (hok : (schedulePublication store now taskId rfk).outcome = .ok t') :
    ∀ u ∈ (schedulePublication store now taskId rfk).store,
      u.id = taskId → u.columnId = if rfk then none else some c := by
  obtain ⟨hmem, hid⟩ := findUniqueTask_mem hfind
  cases hpub : task.publishAt with
  | some p =>
    rw [schedulePublication_explicit hfind hpub] at hok ⊢
    cases rfk
    · simp only [if_false, Bool.false_eq_true]
      intro u hu huid
      have : u = task := nodup_ids_eq hnd u hu task hmem (by rw [huid, hid])
      rw [this, hcol]
    · simp only [if_true]
      intro u hu huid
      obtain ⟨t, ht, hcase⟩ := updateTaskRow_mem hu
      rcases hcase with ⟨-, rfl⟩ | ⟨hne, rfl⟩
      · rfl
      · rw [hid] at hne
        exact absurd huid hne
  | none =>
    cases hslot : findFreeSlot store (now / msPerDay) with
    | none =>
      rw [schedulePublication_no_slot hfind hpub hslot] at hok
      simp at hok
    | some inst =>
      rw [schedulePublication_found_slot hfind hpub hslot]
      intro u hu huid
      obtain ⟨t, ht, hcase⟩ := updateTaskRow_mem hu
      rcases hcase with ⟨-, rfl⟩ | ⟨hne, rfl⟩
      · cases rfk <;> simp [hcol]
      · rw [hid] at hne
        exact absurd huid hne

/-- Witness for C7 at a concrete input (slot-search path,
`removeFromKanban = true`). -/
theorem C7_removeFromKanban_semantics_witness :
    ([mkTask "t" (some "C") none].map Task.id).Nodup
    ∧ findUniqueTask [mkTask "t" (some "C") none] "t"
        = some (mkTask "t" (some "C") none)
    ∧ (mkTask "t" (some "C") none).columnId = some "C"
    ∧ (schedulePublication [mkTask "t" (some "C") none] 345600000 "t" true).outcome
        = .ok (mkTask "t" none (some 378000000))
    ∧ (∀ u ∈ (schedulePublication [mkTask "t" (some "C") none]
          345600000 "t" true).store,
        u.id = "t" → u.columnId = if true then none else some "C") :=
  ⟨by decide, by decide, by decide, by decide,
   C7_removeFromKanban_semantics [mkTask "t" (some "C") none] 345600000 "t" true
     (mkTask "t" (some "C") none) "C" (mkTask "t" none (some 378000000))
     (by decide) (by decide) (by decide) (by decide)⟩

/-- Claim C10: a pre-set `publishAt` is preserved verbatim — with no
assumption at all on its instant (it may fall on a weekend, off the
09:00/13:00/15:00/17:00 grid, or coincide exactly with another content-plan
task's `publishAt`): the returned task and every persisted row with the
task's id keep the pre-set value (ids unique in the store). -/
theorem C10_preset_verbatim (store : List Task) (now : Nat) (taskId : String)
    (rfk : Bool) (task : Task) (p : Nat)
    (hnd : (store.map Task.id).Nodup)
    (hfind : findUniqueTask store taskId = some task)
    (hpub : task.publishAt = some p) :
    ∃ t', (schedulePublication store now taskId rfk).outcome = .ok t'
      ∧ t'.publishAt = some p
      ∧ ∀ u ∈ (schedulePublication store now taskId rfk).store,
          u.id = taskId → u.publishAt = some p := by
  obtain ⟨hmem, hid⟩ := findUniqueTask_mem hfind
  rw [schedulePublication_explicit hfind hpub]
  refine ⟨task, ?_, hpub, ?_⟩
  · cases rfk <;> simp
  · cases rfk
    · simp only [if_false, Bool.false_eq_true]
      intro u hu huid
      have : u = task := nodup_ids_eq hnd u hu task hmem (by rw [huid, hid])
      rw [this, hpub]
    · simp only [if_true]
      intro u hu huid
      obtain ⟨t, ht, hcase⟩ := updateTaskRow_mem hu
      rcases hcase with ⟨hteq, rfl⟩ | ⟨hne, rfl⟩
      · have : t = task := nodup_ids_eq hnd t ht task hmem (by rw [hteq, hid])
        simp [this, hpub]
      · rw [hid] at hne
        exact absurd huid hne

/-- Witness for C10 at an adversarial concrete input: the pre-set instant
211032345 is a Saturday at 10:37:12.345 (off the slot grid) and another
content-plan task occupies exactly that instant; it is still preserved. -/
theorem C10_preset_verbatim_witness :
    ([mkTask "t" (some "C") (some 211032345),
        mkTask "o" none (some 211032345)].map Task.id).Nodup
    ∧ findUniqueTask [mkTask "t" (some "C") (some 211032345),
        mkTask "o" none (some 211032345)] "t"
        = some (mkTask "t" (some "C") (some 211032345))
    ∧ (mkTask "t" (some "C") (some 211032345)).publishAt = some 211032345
    ∧ jsGetDay (211032345 / msPerDay) = 6
    ∧ 211032345 % msPerHour ≠ 0
    ∧ ∃ t', (schedulePublication [mkTask "t" (some "C") (some 211032345),
          mkTask "o" none (some 211032345)] 0 "t" true).outcome = .ok t'
        ∧ t'.publishAt = some 211032345
        ∧ ∀ u ∈ (schedulePublication [mkTask "t" (some "C") (some 211032345),
              mkTask "o" none (some 211032345)] 0 "t" true).store,
            u.id = "t" → u.publishAt = some 211032345 :=
  ⟨by decide, by decide, by decide, by decide, by decide,
   C10_preset_verbatim [mkTask "t" (some "C") (some 211032345),
       mkTask "o" none (some 211032345)] 0 "t" true
     (mkTask "t" (some "C") (some 211032345)) 211032345
     (by decide) (by decide) (by decide)⟩

/-- Counterexample to claim C8 as stated: a call on a task with a pre-set
`publishAt` and `removeFromKanban = false` succeeds while performing zero
persisted updates, so a successful call does not always perform exactly one. -/
theorem C8_counterexample :
    (schedulePublication [mkTask "t" (some "C") (some 12345)] 0 "t" false).outcome
      = .ok (mkTask "t" (some "C") (some 12345))
    ∧ (schedulePublication [mkTask "t" (some "C") (some 12345)] 0 "t" false).writes
      = 0 := by decide

/-- Claim C8 (amended): every successful `schedulePublication` call performs
at most one persisted update to the task store — exactly one except in the
explicit-`publishAt` path with `removeFromKanban = false`, where it performs
none and leaves the store untouched; every failing call performs none and
leaves the store untouched; and in every case all non-`publishAt`,
non-`columnId` fields of every task are unchanged. -/
theorem C8_write_effects (store : List Task) (now : Nat) (taskId : String)
    (rfk : Bool) :
    ((∃ t', (schedulePublication store now taskId rfk).outcome = .ok t') →
      (schedulePublication store now taskId rfk).writes = 1
      ∨ ((schedulePublication store now taskId rfk).writes = 0 ∧ rfk = false
          ∧ (schedulePublication store now taskId rfk).store = store
          ∧ ∃ task p, findUniqueTask store taskId = some task
              ∧ task.publishAt = some p))
    ∧ (∀ task p, rfk = false → findUniqueTask store taskId = some task →
        task.publishAt = some p →
        (schedulePublication store now taskId rfk).writes = 0
        ∧ (schedulePublication store now taskId rfk).store = store
        ∧ (schedulePublication store now taskId rfk).outcome = .ok task)
    ∧ ((∃ e, (schedulePublication store now taskId rfk).outcome = .error e) →
      (schedulePublication store now taskId rfk).writes = 0
      ∧ (schedulePublication store now taskId rfk).store = store)
    ∧ List.Forall₂ sameFrame store (schedulePublication store now taskId rfk).store := by
  have hframe_refl : List.Forall₂ sameFrame store store :=
    List.forall₂_same.mpr fun t _ => sameFrame_refl t
  cases hfind : findUniqueTask store taskId with
  | none =>
    rw [schedulePublication_not_found hfind]
    refine ⟨by simp, ?_, by simp, hframe_refl⟩
    intro task2 p2 _ heq
    exact absurd heq (by simp)
  | some task =>
    cases hpub : task.publishAt with
    | some p =>
      rw [schedulePublication_explicit hfind hpub]
      cases rfk
      · refine ⟨fun _ => Or.inr ⟨rfl, rfl, rfl, task, p, rfl, hpub⟩, ?_,
          by simp, hframe_refl⟩
        intro task2 p2 _ heq _
        obtain rfl := Option.some.inj heq
        exact ⟨rfl, rfl, rfl⟩
      · refine ⟨fun _ => Or.inl rfl, ?_, by simp, ?_⟩
        · intro task2 p2 hfalse _ _
          exact absurd hfalse (by simp)
        · simp only [if_true]
          exact updateTaskRow_forall₂ store task.id _
            (fun t => by simp [sameFrame])
    | none =>
      cases hslot : findFreeSlot store (now / msPerDay) with
      | none =>
        rw [schedulePublication_no_slot hfind hpub hslot]
        refine ⟨by simp, ?_, by simp, hframe_refl⟩
        intro task2 p2 _ heq hpub2
        obtain rfl := Option.some.inj heq
        rw [hpub] at hpub2
        exact absurd hpub2 (by simp)
      | some inst =>
        rw [schedulePublication_found_slot hfind hpub hslot]
        refine ⟨fun _ => Or.inl rfl, ?_, by simp, ?_⟩
        · intro task2 p2 _ heq hpub2
          obtain rfl := Option.some.inj heq
          rw [hpub] at hpub2
          exact absurd hpub2 (by simp)
        · exact updateTaskRow_forall₂ store task.id _
            (fun t => by simp [sameFrame])

/-- Witness for C8 (amended): the inner implications discharged at concrete
inputs — a successful explicit-path call with `removeFromKanban = false`
performing zero writes, and a failing call performing none. -/
theorem C8_write_effects_witness :
    ((schedulePublication [mkTask "t" (some "C") (some 12345)] 0 "t" false).writes
        = 0
      ∧ (schedulePublication [mkTask "t" (some "C") (some 12345)]
          0 "t" false).store = [mkTask "t" (some "C") (some 12345)]
      ∧ (schedulePublication [mkTask "t" (some "C") (some 12345)]
          0 "t" false).outcome = .ok (mkTask "t" (some "C") (some 12345)))
    ∧ ((schedulePublication [] 0 "t" false).writes = 0
        ∧ (schedulePublication [] 0 "t" false).store = []) :=
  ⟨(C8_write_effects [mkTask "t" (some "C") (some 12345)] 0 "t" false).2.1
     (mkTask "t" (some "C") (some 12345)) 12345 rfl (by decide) (by decide),
   (C8_write_effects [] 0 "t" false).2.2.1 ⟨.NotFound, by decide⟩⟩

/-- Claim C9: the slot search ignores the time of day of the invocation
instant (two invocations on the same day behave identically), and for some
invocation instant and store state the assigned `publishAt` precedes the
instant the operation runs: invoked on a Monday at 18:00 against an empty
horizon, a task is assigned that same Monday's 09:00 slot, nine hours in the
past. -/
theorem C9_past_slot_possible :
    (∀ store taskId rfk now now2, now / msPerDay = now2 / msPerDay →
      schedulePublication store now taskId rfk
        = schedulePublication store now2 taskId rfk)
    ∧ (schedulePublication [mkTask "t" none none]
        (4 * msPerDay + 18 * msPerHour) "t" false).outcome
        = .ok (mkTask "t" none (some (slotInstant 4 9)))
    ∧ slotInstant 4 9 < 4 * msPerDay + 18 * msPerHour := by
  refine ⟨?_, by decide, by decide⟩
  intro store taskId rfk now now2 h
  simp only [schedulePublication, h]

/-- Witness for C9: the same-day implication discharged at two concrete
instants of the same Monday. -/
theorem C9_past_slot_possible_witness :
    schedulePublication [mkTask "t" none none] 345600000 "t" false
      = schedulePublication [mkTask "t" none none] 410400000 "t" false :=
  C9_past_slot_possible.1 [mkTask "t" none none] "t" false 345600000 410400000
    (by decide)

lemma exists_businessDay (d0 : Nat) :
    ∃ off, off < 30 ∧ isWeekend (d0 + off) = false := by
  have h7 : d0 % 7 = 0 ∨ d0 % 7 = 1 ∨ d0 % 7 = 2 ∨ d0 % 7 = 3 ∨ d0 % 7 = 4
      ∨ d0 % 7 = 5 ∨ d0 % 7 = 6 := by omega
  rcases h7 with h | h | h | h | h | h | h
  · refine ⟨0, by norm_num, ?_⟩
    simp only [isWeekend, jsGetDay, Bool.or_eq_false_iff, beq_eq_false_iff_ne,
      ne_eq]
    omega
  · refine ⟨0, by norm_num, ?_⟩
    simp only [isWeekend, jsGetDay, Bool.or_eq_false_iff, beq_eq_false_iff_ne,
      ne_eq]
    omega
  · refine ⟨2, by norm_num, ?_⟩
    simp only [isWeekend, jsGetDay, Bool.or_eq_false_iff, beq_eq_false_iff_ne,
      ne_eq]
    omega
  · refine ⟨1, by norm_num, ?_⟩
    simp only [isWeekend, jsGetDay, Bool.or_eq_false_iff, beq_eq_false_iff_ne,
      ne_eq]
    omega
  · refine ⟨0, by norm_num, ?_⟩
    simp only [isWeekend, jsGetDay, Bool.or_eq_false_iff, beq_eq_false_iff_ne,
      ne_eq]
    omega
  · refine ⟨0, by norm_num, ?_⟩
    simp only [isWeekend, jsGetDay, Bool.or_eq_false_iff, beq_eq_false_iff_ne,
      ne_eq]
    omega
  · refine ⟨0, by norm_num, ?_⟩
    simp only [isWeekend, jsGetDay, Bool.or_eq_false_iff, beq_eq_false_iff_ne,
      ne_eq]
    omega

lemma businessDays_exists_cons (d0 : Nat) :
    ∃ d ds, businessDays d0 = d :: ds := by
  obtain ⟨off, hoff, hbd⟩ := exists_businessDay d0
  have hmem : (d0 + off) ∈ businessDays d0 :=
    mem_businessDays.mpr ⟨Nat.le_add_right _ _, by omega, hbd⟩
  cases hbd2 : businessDays d0 with
  | nil =>
    rw [hbd2] at hmem
    simp at hmem
  | cons d ds => exact ⟨d, ds, rfl⟩

lemma candidateSlots_of_head {d0 d : Nat} {ds : List Nat}
    (h : businessDays d0 = d :: ds) :
    candidateSlots d0 = slotInstant d 9 :: slotInstant d 13 :: slotInstant d 15
      :: slotInstant d 17
      :: ds.flatMap (fun e => timeSlots.map fun hh => slotInstant e hh) := by
  simp [candidateSlots, h, timeSlots]

/-- Counterexample to claim C1 as stated: two unscheduled tasks scheduled
sequentially against an otherwise-empty horizon do NOT always get
(first business day, 09:00) and (same day, 13:00).  Starting on Monday
day 4, with the first task sitting on kanban column "C" and
`removeFromKanban = false`, the first call assigns Monday 09:00 but leaves
the task on its column, so it does not occupy the slot; the second call
then assigns the same Monday 09:00 slot, not 13:00. -/
theorem C1_counterexample :
    (businessDays (345600000 / msPerDay)).head? = some 4
    ∧ (schedulePublication [mkTask "a" (some "C") none, mkTask "b" none none]
        345600000 "a" false).outcome
        = .ok (mkTask "a" (some "C") (some (slotInstant 4 9)))
    ∧ (schedulePublication
        (schedulePublication [mkTask "a" (some "C") none, mkTask "b" none none]
          345600000 "a" false).store
        345600000 "b" false).outcome
        = .ok (mkTask "b" none (some (slotInstant 4 9)))
    ∧ slotInstant 4 9 ≠ slotInstant 4 13 := by decide

/-- Claim C1 (amended): (a) for every task with null `publishAt`,
`schedulePublication` assigns the first free slot of the traversal that scans
the 30-day horizon starting today, days outer, skipping weekends, trying
09:00, 13:00, 15:00, 17:00 of each eligible day in that order: the chosen
instant splits the candidate list so that every earlier candidate is occupied
and the chosen one is free; (b) two unscheduled content-plan tasks — null
column, which the counterexample forces — scheduled sequentially against an
otherwise-empty horizon get (first business day, 09:00) and (same day, 13:00)
respectively. -/
theorem C1_traversal_and_determinism :
    (∀ store now taskId rfk task st' w t',
      findUniqueTask store taskId = some task →
      task.publishAt = none →
      schedulePublication store now taskId rfk = ⟨st', w, .ok t'⟩ →
      ∃ inst l1 l2, t'.publishAt = some inst
        ∧ candidateSlots (now / msPerDay) = l1 ++ inst :: l2
        ∧ (∀ c ∈ l1, slotTaken store c = true)
        ∧ slotTaken store inst = false)
    ∧ (∀ now A B, A.publishAt = none → B.publishAt = none →
        A.columnId = none → B.columnId = none → A.id ≠ B.id →
        ∃ d ds, businessDays (now / msPerDay) = d :: ds
          ∧ ∃ st1 t1,
              schedulePublication [A, B] now A.id false = ⟨st1, 1, .ok t1⟩
              ∧ t1.publishAt = some (slotInstant d 9)
              ∧ ∃ st2 t2,
                  schedulePublication st1 now B.id false = ⟨st2, 1, .ok t2⟩
                  ∧ t2.publishAt = some (slotInstant d 13)) := by
  constructor
  · intro store now taskId rfk task st' w t' hfind hpub hrun
    obtain ⟨inst, hslot, ht', _, _⟩ := slot_path_inversion hfind hpub hrun
    obtain ⟨l1, l2, hsplit, htaken, hfree⟩ := findFreeSlot_is_first_free hslot
    exact ⟨inst, l1, l2, by simp [ht'], hsplit, htaken, hfree⟩
  · intro now A B hpA hpB hcA hcB hne
    obtain ⟨d, ds, hbd⟩ := businessDays_exists_cons (now / msPerDay)
    refine ⟨d, ds, hbd, ?_⟩
    have hcand := candidateSlots_of_head hbd
    have hBA2 : B.id ≠ A.id := fun h => hne h.symm
    -- first call: the 09:00 slot of the first business day is free
    have hfind1 : findUniqueTask [A, B] A.id = some A := by
      simp [findUniqueTask]
    have hslot1 : findFreeSlot [A, B] (now / msPerDay)
        = some (slotInstant d 9) := by
      rw [findFreeSlot, hcand]
      rw [List.find?_cons_of_pos]
      simp [slotTaken, hpA, hpB]
    have hrun1 := @schedulePublication_found_slot [A, B] now A.id false A
      (slotInstant d 9) hfind1 hpA hslot1
    have hst1 : updateTaskRow [A, B] A.id
        (fun t => { t with
           publishAt := some (slotInstant d 9),
           columnId := if false then none else A.columnId })
        = [{ A with publishAt := some (slotInstant d 9) }, B] := by
      simp [updateTaskRow, hBA2, hcA]
    rw [hst1] at hrun1
    refine ⟨[{ A with publishAt := some (slotInstant d 9) }, B],
      { A with
        publishAt := some (slotInstant d 9),
        columnId := if false then none else A.columnId }, ?_, by simp, ?_⟩
    · exact hrun1
    -- second call: 09:00 is now occupied by the first task, 13:00 is free
    have hfind2 : findUniqueTask
        [{ A with publishAt := some (slotInstant d 9) }, B] B.id = some B := by
      rw [findUniqueTask, List.find?_cons_of_neg _ (by simp [hne]),
        List.find?_cons_of_pos _ (by simp)]
    have h913 : slotInstant d 9 ≠ slotInstant d 13 := by
      simp only [slotInstant, msPerHour, msPerDay]
      omega
    have htaken9 : slotTaken [{ A with publishAt := some (slotInstant d 9) }, B]
        (slotInstant d 9) = true := by
      simp [slotTaken, hcA]
    have hfree13 : slotTaken [{ A with publishAt := some (slotInstant d 9) }, B]
        (slotInstant d 13) = false := by
      refine (slotTaken_eq_false_iff _ _).mpr ?_
      intro u hu hc
      rcases List.mem_cons.mp hu with rfl | hu2
      · intro h
        exact h913 (Option.some.inj (by simpa using h))
      · rcases List.mem_cons.mp hu2 with rfl | hu3
        · simp [hpB]
        · simp at hu3
    have hslot2 : findFreeSlot [{ A with publishAt := some (slotInstant d 9) }, B]
        (now / msPerDay) = some (slotInstant d 13) := by
      rw [findFreeSlot, hcand, List.find?_cons_of_neg _ (by simp [htaken9]),
        List.find?_cons_of_pos _ (by simp [hfree13])]
    have hrun2 := @schedulePublication_found_slot
      [{ A with publishAt := some (slotInstant d 9) }, B] now B.id false B
      (slotInstant d 13) hfind2 hpB hslot2
    exact ⟨_, _, hrun2, by simp⟩

/-- Witness for C1 (amended), both halves at concrete inputs: a single
unscheduled content-plan task scheduled on Monday day 4, and the two-task
scenario with both tasks in the content plan. -/
theorem C1_traversal_and_determinism_witness :
    (∃ inst l1 l2,
      (mkTask "t" none (some (slotInstant 4 9))).publishAt = some inst
      ∧ candidateSlots (345600000 / msPerDay) = l1 ++ inst :: l2
      ∧ (∀ c ∈ l1, slotTaken [mkTask "t" none none] c = true)
      ∧ slotTaken [mkTask "t" none none] inst = false)
    ∧ ∃ d ds, businessDays (345600000 / msPerDay) = d :: ds
        ∧ ∃ st1 t1,
            schedulePublication [mkTask "a" none none, mkTask "b" none none]
              345600000 "a" false = ⟨st1, 1, .ok t1⟩
            ∧ t1.publishAt = some (slotInstant d 9)
            ∧ ∃ st2 t2,
                schedulePublication st1 345600000 "b" false = ⟨st2, 1, .ok t2⟩
                ∧ t2.publishAt = some (slotInstant d 13) :=
  ⟨C1_traversal_and_determinism.1 [mkTask "t" none none] 345600000 "t" false
     (mkTask "t" none none) [mkTask "t" none (some (slotInstant 4 9))] 1
     (mkTask "t" none (some (slotInstant 4 9)))
     (by decide) (by decide) (by decide),
   C1_traversal_and_determinism.2 345600000 (mkTask "a" none none)
     (mkTask "b" none none) (by decide) (by decide) (by decide) (by decide)
     (by decide)⟩

end KanbanSched
